import Mathlib

/-!
# Verification of the vol-analysis analytics / dataset / training pipeline

Shallow embedding of the analytics components (`src/analysis/volatility.rs`,
`src/analysis/cross_sector.rs`, `src/analysis/bond_spreads.rs`), the dataset
builder (`src/nn/dataset.rs`) and the status logic of the training loop
(`src/nn/training.rs`).

Modelling conventions:
* `f64` values are modelled as exact rationals (`ℚ`).  All verified claims
  concern list lengths, alignment, guard conditions and exact neutral values,
  none of which depend on floating-point rounding.
* `f64::sqrt` is modelled by Mathlib's `Rat.sqrt`, which agrees with the
  real square root on every rational square (all concrete square-root values
  appearing in the theorems below are of this form) and is nonnegative
  everywhere, as the real square root is on the domain the code applies it
  to (variances, i.e. sums of squares).
* `f64::ln` and the constant `LN_2` are transcendental; the one function
  using them (`parkinson_volatility`) is parametric in them, and every
  theorem below holds for all choices of the parameters.
* Rust indexing that can panic (`aligned[i]` in `compute_correlation_matrix`)
  is modelled with `Option`: `none` is a panic.  Rust `.get(i)` /
  `unwrap_or` lookups are modelled with `List` `[i]?` lookups / `Option.getD`.
* `data/models.rs` is not part of the provided sources; the data carriers it
  declares (`TreasuryRate`, `MarketData`, sector series, `VolatilityMetrics`,
  `CorrelationMatrix`, `BondSpread`, `TrainingStatus`) are modelled from the
  spec, as noted on each declaration.
-/

namespace VolAnalysis

/-- `const TRADING_DAYS_PER_YEAR: f64 = 252.0` (volatility.rs). -/
def TRADING_DAYS_PER_YEAR : ℚ := 252

/-- `config::SHORT_VOL_WINDOW` (config.rs). -/
def SHORT_VOL_WINDOW : ℕ := 21

/-- `config::LONG_VOL_WINDOW` (config.rs). -/
def LONG_VOL_WINDOW : ℕ := 63

/-- `rolling_volatility` (volatility.rs): annualized Bessel-corrected
standard deviation over each sliding window; empty when the input is
shorter than the window or the window is below 2. -/
def rollingVolatility (logReturns : List ℚ) (window : ℕ) : List ℚ :=
  if logReturns.length < window ∨ window < 2 then []
  else
    (List.range (logReturns.length - window + 1)).map fun i =>
      let w := (logReturns.drop i).take window
      let mean := w.sum / (w.length : ℚ)
      let variance := ((w.map fun r => (r - mean) ^ 2).sum) / ((w.length - 1 : ℕ) : ℚ)
      Rat.sqrt variance * Rat.sqrt TRADING_DAYS_PER_YEAR

/-- `parkinson_volatility` (volatility.rs).  Parametric in the model `lnf`
of `f64::ln` and the model `ln2` of `std::f64::consts::LN_2`; no claim
below depends on their values. -/
def parkinsonVolatility (lnf : ℚ → ℚ) (ln2 : ℚ) (highs lows : List ℚ)
    (window : ℕ) : List ℚ :=
  if highs.length ≠ lows.length ∨ highs.length < window ∨ window < 1 then []
  else
    let hlLogSq := (highs.zip lows).map fun p =>
      if p.2 ≤ 0 ∨ p.1 ≤ 0 then 0 else (lnf (p.1 / p.2)) ^ 2
    let factor := 1 / (4 * ln2)
    (List.range (hlLogSq.length - window + 1)).map fun i =>
      let w := (hlLogSq.drop i).take window
      let avg := w.sum / (w.length : ℚ)
      Rat.sqrt (factor * avg) * Rat.sqrt TRADING_DAYS_PER_YEAR

/-- `volatility_ratio` (volatility.rs): elementwise ratio after aligning
both series at their trailing ends; near-zero denominators yield 1.0. -/
def volatilityRatio (shortVol longVol : List ℚ) : List ℚ :=
  let len := min shortVol.length longVol.length
  ((shortVol.drop (shortVol.length - len)).zip
      (longVol.drop (longVol.length - len))).map fun p =>
    if 1e-10 < |p.2| then p.1 / p.2 else 1

/-- Modelled from the spec: `VolatilityMetrics` (data/models.rs is not under
src/): symbol plus the four derived series (§3). -/
structure VolatilityMetrics where
  symbol : String
  shortWindowVol : List ℚ
  longWindowVol : List ℚ
  parkinsonVol : List ℚ
  volRatio : List ℚ
  deriving DecidableEq, Repr

/-- The `trim` closure inside `compute_sector_volatility` (volatility.rs):
keep the trailing `n` elements when the series is long enough, otherwise
leave it unchanged. -/
def trimTo (n : ℕ) (v : List ℚ) : List ℚ :=
  if n ≤ v.length then v.drop (v.length - n) else v

/-- `compute_sector_volatility` (volatility.rs). -/
def computeSectorVolatility (lnf : ℚ → ℚ) (ln2 : ℚ) (symbol : String)
    (logReturns highs lows : List ℚ) (shortWindow longWindow : ℕ) :
    VolatilityMetrics :=
  let shortVol := rollingVolatility logReturns shortWindow
  let longVol := rollingVolatility logReturns longWindow
  let parkVol := parkinsonVolatility lnf ln2 highs lows shortWindow
  let volRat := volatilityRatio shortVol longVol
  let n := longVol.length
  { symbol := symbol
    shortWindowVol := trimTo n shortVol
    longWindowVol := longVol
    parkinsonVol := trimTo n parkVol
    volRatio := volRat }

/-- Mean of a list, as computed by `pearson_correlation`'s `sum / n`. -/
def listMean (l : List ℚ) : ℚ := l.sum / (l.length : ℚ)

/-- The `var_a` / `var_b` accumulator of `pearson_correlation`
(cross_sector.rs): sum of squared deviations from the mean. -/
def sumSqDevs (l : List ℚ) : ℚ :=
  ((l.map fun x => (x - listMean l) ^ 2).sum)

/-- The `cov` accumulator of `pearson_correlation` (cross_sector.rs). -/
def covSum (a b : List ℚ) : ℚ :=
  (((a.zip b).map fun p => (p.1 - listMean a) * (p.2 - listMean b)).sum)

/-- The `denom` of `pearson_correlation`: `(var_a * var_b).sqrt()`. -/
def pearsonDenom (a b : List ℚ) : ℚ := Rat.sqrt (sumSqDevs a * sumSqDevs b)

/-- `pearson_correlation` (cross_sector.rs). -/
def pearsonCorrelation (a b : List ℚ) : ℚ :=
  let n := min a.length b.length
  if n < 2 then 0
  else
    let a' := a.take n
    let b' := b.take n
    if pearsonDenom a' b' < 1e-15 then 0 else covSum a' b' / pearsonDenom a' b'

/-- Modelled from the spec: `CorrelationMatrix` (data/models.rs is not under
src/): ordered symbols plus the coefficient matrix (§3). -/
structure CorrelationMatrix where
  symbols : List String
  matrix : List (List ℚ)
  deriving DecidableEq, Repr

/-- Rust `iter().min().unwrap_or(0)` over a list of lengths. -/
def listMinD (l : List ℕ) : ℕ :=
  match l with
  | [] => 0
  | a :: t => t.foldl min a

/-- The minimum aligned length used by `compute_correlation_matrix`. -/
def minAlignedLen (returns : List (List ℚ)) : ℕ :=
  listMinD (returns.map List.length)

/-- The pairs `(i, j)` with `i < j < n` visited by the nested loop of
`compute_correlation_matrix`, in loop order. -/
def pairList (n : ℕ) : List (ℕ × ℕ) :=
  (List.range n).flatMap fun i =>
    ((List.range n).filter fun j => decide (i < j)).map fun j => (i, j)

/-- Run an option-valued function over a list, failing (panicking) as soon
as one element fails. -/
def optionMapAll (f : α → Option β) : List α → Option (List β)
  | [] => some []
  | a :: l =>
    match f a, optionMapAll f l with
    | some b, some bs => some (b :: bs)
    | _, _ => none

/-- The strict-upper-triangle computations of `compute_correlation_matrix`:
each pair indexes `aligned` directly (`aligned[i]`), so an out-of-range
index is a panic (`none`). -/
def computeUpper (aligned : List (List ℚ)) (n : ℕ) :
    Option (List ((ℕ × ℕ) × ℚ)) :=
  optionMapAll
    (fun p =>
      match aligned[p.1]?, aligned[p.2]? with
      | some a, some b => some (p, pearsonCorrelation a b)
      | _, _ => none)
    (pairList n)

/-- Entry lookup in a row-major matrix. -/
def matEntry (m : List (List ℚ)) (i j : ℕ) : Option ℚ :=
  (m[i]?).bind fun row => row[j]?

/-- `compute_correlation_matrix` (cross_sector.rs).  `none` models the
panic of `aligned[i]` when a pair index exceeds the number of return
series.  In the non-degenerate case the final matrix has `1.0` on the
diagonal and the pair's coefficient mirrored into both triangles; entries
the loop never touches keep their `0.0` initialisation, which is what the
`getD 0` models. -/
def computeCorrelationMatrix (symbols : List String)
    (returns : List (List ℚ)) : Option CorrelationMatrix :=
  let n := symbols.length
  let minLen := minAlignedLen returns
  if minLen < 2 then
    some ⟨symbols, List.replicate n (List.replicate n 0)⟩
  else
    let aligned := returns.map fun r => r.drop (r.length - minLen)
    match computeUpper aligned n with
    | none => none
    | some upper =>
      some ⟨symbols,
        (List.range n).map fun i =>
          (List.range n).map fun j =>
            if i = j then 1
            else
              (((upper.find? fun q =>
                    q.1.1 == min i j && q.1.2 == max i j).map (·.2)).getD 0)⟩

/-- `average_cross_correlation` (cross_sector.rs): mean of the strict upper
triangle. -/
def averageCrossCorrelation (cm : CorrelationMatrix) : ℚ :=
  let n := cm.symbols.length
  if n < 2 then 0
  else
    let pairs := pairList n
    let s := (pairs.map fun p => (matEntry cm.matrix p.1 p.2).getD 0).sum
    if pairs.length = 0 then 0 else s / (pairs.length : ℚ)

/-- Modelled from the spec: `TreasuryRate` (data/models.rs is not under
src/): one curve observation, optional rate per tenor (§3).  The date is a
string parsed by `parsed_date`, which can fail (`r.parsed_date()?` in
bond_spreads.rs); the parse result is represented directly as an optional
abstract date. -/
structure TreasuryRate where
  parsedDate : Option ℕ := none
  month1 : Option ℚ := none
  month2 : Option ℚ := none
  month3 : Option ℚ := none
  month6 : Option ℚ := none
  year1 : Option ℚ := none
  year2 : Option ℚ := none
  year3 : Option ℚ := none
  year5 : Option ℚ := none
  year7 : Option ℚ := none
  year10 : Option ℚ := none
  year20 : Option ℚ := none
  year30 : Option ℚ := none
  deriving DecidableEq, Repr

/-- Modelled from the spec: `BondSpread` (data/models.rs is not under src/):
date, 10Y−2Y spread, 30Y−3M curve slope (§3). -/
structure BondSpread where
  date : ℕ
  spread10y2y : ℚ
  curveSlope : ℚ
  deriving DecidableEq, Repr

/-- `compute_term_spreads` (bond_spreads.rs). -/
def computeTermSpreads (rates : List TreasuryRate) : List BondSpread :=
  rates.filterMap fun r =>
    match r.parsedDate, r.year10, r.year2 with
    | some date, some y10, some y2 =>
      some { date := date
             spread10y2y := y10 - y2
             curveSlope := (r.year30.getD y10) - (r.month3.getD y2) }
    | _, _, _ => none

/-- Reference definition following the spec's words (§4.3), amended with
the parseable-date condition: one entry per observation that has a
parseable date and both a 2Y and a 10Y rate; spread `10Y − 2Y`; slope
`(30Y, falling back to 10Y) − (3M, falling back to 2Y)`. -/
def specTermSpreads (rates : List TreasuryRate) : List BondSpread :=
  (rates.filter fun r =>
      r.parsedDate.isSome && r.year10.isSome && r.year2.isSome).map fun r =>
    { date := r.parsedDate.getD 0
      spread10y2y := r.year10.getD 0 - r.year2.getD 0
      curveSlope :=
        r.year30.getD (r.year10.getD 0) - r.month3.getD (r.year2.getD 0) }

/-- `detect_inversions` (bond_spreads.rs). -/
def detectInversions (rates : List TreasuryRate) : List ℕ :=
  rates.filterMap fun r =>
    match r.parsedDate, r.year10, r.year2 with
    | some date, some y10, some y2 => if y10 < y2 then some date else none
    | _, _, _ => none

/-- Modelled from the spec: an instrument series (data/models.rs is not
under src/).  The spec (§3) specifies only that an `InstrumentSeries`
derives a log-return sequence of length `bars − 1`; since the claims about
`build_dataset` depend only on that derived sequence, it is represented
directly. -/
structure Sector where
  symbol : String
  logReturns : List ℚ
  deriving DecidableEq, Repr

/-- Modelled from the spec: `MarketData` (data/models.rs is not under
src/): the per-sector series, the yield-curve observations and the
optional benchmark instrument consumed by `build_dataset`. -/
structure MarketData where
  sectors : List Sector
  treasuryRates : List TreasuryRate
  benchmark : Option Sector
  deriving DecidableEq, Repr

/-- `VolSample` (nn/dataset.rs): feature matrix `[seq_length, num_features]`
plus scalar target. -/
structure VolSample where
  features : List (List ℚ)
  target : ℚ
  deriving DecidableEq, Repr, Inhabited

/-- `VolDataset` (nn/dataset.rs). -/
structure VolDataset where
  samples : List VolSample
  deriving DecidableEq, Repr

/-- Benchmark-volatility alignment in `build_dataset` (nn/dataset.rs,
`bench_v`): trailing `vol_len` entries when long enough, otherwise a fully
zero series of length `vol_len`. -/
def benchAligned (bv : List ℚ) (volLen : ℕ) : List ℚ :=
  if volLen ≤ bv.length then bv.drop (bv.length - volLen)
  else List.replicate volLen 0

/-- Bond-spread alignment in `build_dataset` (nn/dataset.rs,
`spread_vals`): the first `vol_len` observations reversed (the input
arrives newest-first) when long enough, otherwise a fully zero series. -/
def spreadVals (bondSpreads : List BondSpread) (volLen : ℕ) : List ℚ :=
  if volLen ≤ bondSpreads.length then
    ((bondSpreads.take volLen).reverse).map (·.spread10y2y)
  else List.replicate volLen 0

/-- Curve-slope alignment in `build_dataset` (nn/dataset.rs,
`slope_vals`). -/
def slopeVals (bondSpreads : List BondSpread) (volLen : ℕ) : List ℚ :=
  if volLen ≤ bondSpreads.length then
    ((bondSpreads.take volLen).reverse).map (·.curveSlope)
  else List.replicate volLen 0

/-- `build_dataset` (nn/dataset.rs).  Returns `none` exactly when the
embedded `compute_correlation_matrix` panics (which cannot happen from this
call site, where symbols and return series are in bijection). -/
def buildDataset (data : MarketData) (lookback forward : ℕ) :
    Option VolDataset :=
  let sectorReturns := data.sectors.map (·.logReturns)
  let nSectors := sectorReturns.length
  if nSectors = 0 then some ⟨[]⟩
  else
    let minLen := listMinD (sectorReturns.map List.length)
    if minLen < lookback + forward + LONG_VOL_WINDOW then some ⟨[]⟩
    else
      let alignedReturns := sectorReturns.map fun r => r.drop (r.length - minLen)
      let sectorVols := alignedReturns.map fun r =>
        rollingVolatility r SHORT_VOL_WINDOW
      let volLen := listMinD (sectorVols.map List.length)
      if volLen < lookback + forward then some ⟨[]⟩
      else
        let bondSpreads := computeTermSpreads data.treasuryRates
        let symbols := data.sectors.map (·.symbol)
        match computeCorrelationMatrix symbols alignedReturns with
        | none => none
        | some corrMatrix =>
          let avgCorr := averageCrossCorrelation corrMatrix
          let benchVol := data.benchmark.map fun b =>
            rollingVolatility b.logReturns SHORT_VOL_WINDOW
          let alignedVols := sectorVols.map fun v => v.drop (v.length - volLen)
          let alignedRets := alignedReturns.map fun r => r.drop (r.length - volLen)
          let benchV := benchVol.map fun bv => benchAligned bv volLen
          let sVals := spreadVals bondSpreads volLen
          let slVals := slopeVals bondSpreads volLen
          let effectiveLen := volLen - forward
          if effectiveLen ≤ lookback then some ⟨[]⟩
          else
            some ⟨(List.range (effectiveLen - lookback)).map fun start =>
              let endIdx := start + lookback
              let windowFeatures := (List.range lookback).map fun k =>
                let t := start + k
                (alignedVols.map fun sv => (sv[t]?).getD 0)
                  ++ List.replicate (11 - nSectors) 0
                  ++ (alignedRets.map fun sr => (sr[t]?).getD 0)
                  ++ List.replicate (11 - nSectors) 0
                  ++ [avgCorr, (sVals[t]?).getD 0, (slVals[t]?).getD 0,
                      ((benchV.bind fun bv => bv[t]?)).getD 0]
              let targetEnd := min (endIdx + forward) volLen
              let targetIdxs := List.range' endIdx (targetEnd - endIdx)
              let targetVals := alignedVols.flatMap fun sv =>
                targetIdxs.filterMap fun t => sv[t]?
              let target :=
                if targetVals.length ≠ 0 then
                  targetVals.sum / (targetVals.length : ℚ)
                else 0
              ⟨windowFeatures, target⟩⟩

/-- Modelled from the spec: `TrainingStatus` (data/models.rs is not under
src/): the state machine of §3.  The `loss` field of `Training` and the
`final_loss` of `Complete` are `Option ℚ`, with `none` standing for the
`f64::NAN` initialisation and `f64::INFINITY`-seeded best tracker before
any epoch finishes. -/
inductive TrainingStatus where
  | Idle : TrainingStatus
  | Training (epoch totalEpochs : ℕ) (loss : Option ℚ) : TrainingStatus
  | Complete (finalLoss : Option ℚ) : TrainingStatus
  | Error (msg : String) : TrainingStatus
  deriving DecidableEq, Repr

/-- One step of the best-loss tracker in `train` (training.rs):
`if avg_loss < best_loss { best_loss = avg_loss }`, with `none` standing
for the initial `f64::INFINITY` (every finite loss is below it). -/
def updBest (b : Option ℚ) (l : ℚ) : Option ℚ :=
  match b with
  | none => some l
  | some x => if l < x then some l else some x

/-- The best (minimum) epoch-average loss observed across the run. -/
def bestLoss (epochLosses : List ℚ) : Option ℚ :=
  epochLosses.foldl updBest none

/-- The terminal status published by `train` (training.rs), given the built
dataset and the sequence of per-epoch average losses.  The tensor, model
and optimizer internals are out of scope (the spec treats the model as an
opaque trainable function), so the per-epoch average losses produced by
the mini-batch loop are a parameter; everything else mirrors `train`'s
control flow: empty dataset and too-small-split errors, then
`Complete { final_loss = best }` after the last epoch. -/
def trainFinalStatus (dataset : VolDataset) (batchSize : ℕ)
    (epochLosses : List ℚ) : TrainingStatus :=
  let total := dataset.samples.length
  if total = 0 then
    .Error "Not enough data to build training dataset. Load more market data."
  else
    -- `(total as f64 * 0.8) as usize`, exact at every realistic size
    let trainSize := total * 4 / 5
    if trainSize < batchSize ∨ total - trainSize < 1 then
      .Error ("Dataset too small (" ++ toString total ++ " samples). Need more data.")
    else
      .Complete (bestLoss epochLosses)

/-- A one-sector market-data input with 64 days of (zero) log returns: just
enough history for `lookback = 1`, `forward = 0`
(`64 = 1 + 0 + LONG_VOL_WINDOW`). -/
def marketOneSector : MarketData :=
  ⟨[⟨"A", List.replicate 64 0⟩], [], none⟩

/-- The dataset built from `marketOneSector`. -/
def datasetOneSector : VolDataset :=
  (buildDataset marketOneSector 1 0).getD ⟨[]⟩

/-- A twelve-sector market-data input (one more sector than the padding
basis of 11), each with 64 days of (zero) log returns. -/
def marketTwelveSectors : MarketData :=
  ⟨(List.range 12).map fun i => ⟨toString i, List.replicate 64 0⟩, [], none⟩

/-- Two yield-curve observations (newest first) whose spreads are 5 and 6:
used to exhibit the bond-series zero-fill behaviour. -/
def bondSpreadsExample : List BondSpread := [⟨1, 5, 1⟩, ⟨0, 6, 2⟩]

/-- A curve observation with both a 2Y and a 10Y rate whose date does not
parse. -/
def rateNoDate : TreasuryRate :=
  { parsedDate := none, year2 := some 3.5, year10 := some 4.2 }

/-- The §8 example observation: 2Y=3.5, 10Y=4.2, 30Y=4.8, 3M=3.6. -/
def rateExample : TreasuryRate :=
  { parsedDate := some 0, month3 := some 3.6, year2 := some 3.5,
    year10 := some 4.2, year30 := some 4.8 }

/-- The correlation matrix of a concrete two-symbol input with three
aligned points. -/
def corrExample : CorrelationMatrix :=
  (computeCorrelationMatrix ["A", "B"] [[1, 0, 1], [0, 1, 0]]).getD ⟨[], []⟩

/-!
## Helper lemmas
-/

theorem rollingVolatility_length {r : List ℚ} {w : ℕ} (h1 : w ≤ r.length)
    (h2 : 2 ≤ w) : (rollingVolatility r w).length = r.length - w + 1 := by
  rw [rollingVolatility, if_neg (by omega)]
  simp

theorem rollingVolatility_eq_nil {r : List ℚ} {w : ℕ}
    (h : r.length < w ∨ w < 2) : rollingVolatility r w = [] := by
  rw [rollingVolatility, if_pos h]

theorem rollingVolatility_nonneg {r : List ℚ} {w : ℕ} :
    ∀ v ∈ rollingVolatility r w, 0 ≤ v := by
  intro v hv
  rw [rollingVolatility] at hv
  split at hv
  · simp at hv
  · simp only [List.mem_map] at hv
    obtain ⟨i, -, rfl⟩ := hv
    exact mul_nonneg (Rat.sqrt_nonneg _) (Rat.sqrt_nonneg _)

theorem parkinsonVolatility_length {lnf : ℚ → ℚ} {ln2 : ℚ}
    {highs lows : List ℚ} {w : ℕ} (h1 : highs.length = lows.length)
    (h2 : w ≤ highs.length) (h3 : 1 ≤ w) :
    (parkinsonVolatility lnf ln2 highs lows w).length = highs.length - w + 1 := by
  rw [parkinsonVolatility, if_neg (by omega)]
  simp [h1.symm, min_self]

theorem volatilityRatio_length (s l : List ℚ) :
    (volatilityRatio s l).length = min s.length l.length := by
  simp [volatilityRatio]
  omega

theorem trimTo_eq_drop (n : ℕ) (v : List ℚ) :
    trimTo n v = v.drop (v.length - n) := by
  rw [trimTo]
  split
  · rfl
  · rw [Nat.sub_eq_zero_of_le (by omega), List.drop_zero]

theorem trimTo_length {n : ℕ} {v : List ℚ} (h : n ≤ v.length) :
    (trimTo n v).length = n := by
  rw [trimTo_eq_drop, List.length_drop]
  omega

theorem trimTo_suffix (n : ℕ) (v : List ℚ) : trimTo n v <:+ v := by
  rw [trimTo_eq_drop]
  exact List.drop_suffix _ _

theorem mem_pairList {n i j : ℕ} : (i, j) ∈ pairList n ↔ i < j ∧ j < n := by
  simp only [pairList, List.mem_flatMap, List.mem_map, List.mem_filter,
    List.mem_range, decide_eq_true_eq]
  constructor
  · rintro ⟨a, -, b, ⟨hb, hab⟩, heq⟩
    cases heq
    exact ⟨hab, hb⟩
  · rintro ⟨hij, hj⟩
    exact ⟨i, by omega, j, ⟨hj, hij⟩, rfl⟩

theorem optionMapAll_isSome_iff {f : α → Option β} {l : List α} :
    (optionMapAll f l).isSome ↔ ∀ a ∈ l, (f a).isSome := by
  induction l with
  | nil => simp [optionMapAll]
  | cons a t ih =>
    simp only [optionMapAll, List.mem_cons]
    cases hfa : f a <;> cases hres : optionMapAll f t <;>
      simp_all [Option.isSome]

theorem optionMapAll_eq_none {f : α → Option β} {l : List α} {a : α}
    (ha : a ∈ l) (hfa : f a = none) : optionMapAll f l = none := by
  induction l with
  | nil => cases ha
  | cons b t ih =>
    rcases List.mem_cons.1 ha with rfl | ht
    · simp [optionMapAll, hfa]
    · rw [optionMapAll, ih ht]
      cases f b <;> rfl

theorem le_listMinD {l : List ℕ} {c : ℕ} (hne : l ≠ [])
    (h : ∀ x ∈ l, c ≤ x) : c ≤ listMinD l := by
  match l with
  | a :: t =>
    rw [listMinD]
    clear hne
    induction t generalizing a with
    | nil => exact h a (List.mem_cons_self a [])
    | cons b t ih =>
      rw [List.foldl_cons]
      exact ih (min a b)
        (fun x hx => by
          rcases List.mem_cons.1 hx with rfl | hx
          · exact le_min (h a (by simp)) (h b (by simp))
          · exact h x (by simp [hx]))

theorem foldl_min_le {α : Type _} [LinearOrder α] {l : List α} {a : α} :
    l.foldl min a ≤ a ∧ ∀ x ∈ l, l.foldl min a ≤ x := by
  induction l generalizing a with
  | nil => simp
  | cons b t ih =>
    rw [List.foldl_cons]
    refine ⟨le_trans ih.1 (min_le_left a b), ?_⟩
    intro x hx
    rcases List.mem_cons.1 hx with rfl | hx
    · exact le_trans ih.1 (min_le_right a x)
    · exact ih.2 x hx

theorem foldl_min_mem {α : Type _} [LinearOrder α] {l : List α} {a : α} :
    l.foldl min a = a ∨ l.foldl min a ∈ l := by
  induction l generalizing a with
  | nil => simp
  | cons b t ih =>
    rw [List.foldl_cons]
    rcases ih (a := min a b) with h | h
    · rcases min_cases a b with ⟨hm, -⟩ | ⟨hm, -⟩
      · exact Or.inl (h.trans hm)
      · exact Or.inr (by simp [h.trans hm])
    · exact Or.inr (by simp [h])

theorem foldl_updBest_some {t : List ℚ} {x : ℚ} :
    t.foldl updBest (some x) = some (t.foldl min x) := by
  induction t generalizing x with
  | nil => rfl
  | cons b t ih =>
    rw [List.foldl_cons, List.foldl_cons]
    have : updBest (some x) b = some (min x b) := by
      rw [updBest]
      rcases lt_or_ge b x with h | h
      · rw [if_pos h, min_eq_right h.le]
      · rw [if_neg (not_lt.2 h), min_eq_left h]
    rw [this, ih]

theorem bestLoss_cons (l : ℚ) (t : List ℚ) :
    bestLoss (l :: t) = some (t.foldl min l) := by
  rw [bestLoss, List.foldl_cons]
  exact foldl_updBest_some

theorem matEntry_rangeMap (f : ℕ → ℕ → ℚ) (n i j : ℕ) :
    matEntry ((List.range n).map fun a => (List.range n).map fun b => f a b)
      i j = if i < n ∧ j < n then some (f i j) else none := by
  rw [matEntry]
  rcases Nat.lt_or_ge i n with hi | hi
  · rw [List.getElem?_map, List.getElem?_range hi]
    rcases Nat.lt_or_ge j n with hj | hj
    · rw [if_pos ⟨hi, hj⟩]
      simp [List.getElem?_map, List.getElem?_range hj]
    · rw [if_neg (by omega)]
      simp only [Option.map_some', Option.some_bind]
      exact List.getElem?_eq_none (by simp; omega)
  · rw [List.getElem?_map, List.getElem?_eq_none (by simp; omega)]
    rw [if_neg (by omega)]
    rfl

theorem matEntry_replicate (n i j : ℕ) :
    matEntry (List.replicate n (List.replicate n (0 : ℚ))) i j =
      if i < n ∧ j < n then some 0 else none := by
  rw [matEntry, List.getElem?_replicate]
  rcases Nat.lt_or_ge i n with hi | hi
  · rw [if_pos hi, Option.some_bind, List.getElem?_replicate]
    rcases Nat.lt_or_ge j n with hj | hj
    · rw [if_pos hj, if_pos ⟨hi, hj⟩]
    · rw [if_neg (by omega), if_neg (by omega)]
  · rw [if_neg (by omega), if_neg (by omega), Option.none_bind]

theorem headI_mem {α : Type _} [Inhabited α] {l : List α} (h : l ≠ []) :
    l.headI ∈ l := by
  cases l with
  | nil => exact absurd rfl h
  | cons a t => exact List.mem_cons_self a t

theorem filterMap_skips_unparseable {α : Type _} (f : TreasuryRate → Option α)
    (hf : ∀ r, r.parsedDate = none → f r = none) (rates : List TreasuryRate) :
    rates.filterMap f =
      (rates.filter fun r => r.parsedDate.isSome).filterMap f := by
  induction rates with
  | nil => rfl
  | cons r t ih =>
    rcases hd : r.parsedDate with - | d
    · rw [List.filterMap_cons, hf r hd, List.filter_cons,
        if_neg (by simp [hd])]
      exact ih
    · rw [List.filter_cons, if_pos (by simp [hd]), List.filterMap_cons,
        List.filterMap_cons]
      cases hfr : f r <;> simp [hfr, ih]

/-!
## Claim theorems
-/

/-- Claim C8: for every return sequence `r` and window `w` with
`len(r) ≥ w ≥ 2`, `rolling_volatility(r, w)` has length `len(r) − w + 1`
and every value is ≥ 0; it returns empty when `len(r) < w` or `w < 2`. -/
theorem c8_rolling_volatility_spec (r : List ℚ) (w : ℕ) :
    (w ≤ r.length → 2 ≤ w →
      (rollingVolatility r w).length = r.length - w + 1 ∧
        ∀ v ∈ rollingVolatility r w, 0 ≤ v) ∧
    (r.length < w ∨ w < 2 → rollingVolatility r w = []) :=
  ⟨fun h1 h2 => ⟨rollingVolatility_length h1 h2, rollingVolatility_nonneg⟩,
    rollingVolatility_eq_nil⟩

/-- Witness for C8 at concrete inputs: a three-return series with window 2,
and the two degenerate guards. -/
theorem c8_rolling_volatility_spec_witness :
    ((rollingVolatility [1, 0, 1] 2).length = 2 ∧
      ∀ v ∈ rollingVolatility [1, 0, 1] 2, 0 ≤ v) ∧
    rollingVolatility [1] 2 = [] ∧ rollingVolatility [1, 0, 1] 1 = [] := by
  refine ⟨?_, ?_, ?_⟩
  · have h := (c8_rolling_volatility_spec [1, 0, 1] 2).1 (by simp) (by omega)
    simpa using h
  · exact (c8_rolling_volatility_spec [1] 2).2 (Or.inl (by simp))
  · exact (c8_rolling_volatility_spec [1, 0, 1] 1).2 (Or.inr (by omega))

/-- Claim C6 (amended): `pearson_correlation` returns 0.0 whenever fewer than 2
paired points are available or the computed denominator
`√(varA · varB)` is below `1e-15`; the guard is on the square root of the
product of the two variance accumulators, not on each variance
separately. -/
theorem c6_pearson_neutral_zero (a b : List ℚ)
    (h : min a.length b.length < 2 ∨
      pearsonDenom (a.take (min a.length b.length))
          (b.take (min a.length b.length)) < 1e-15) :
    pearsonCorrelation a b = 0 := by
  simp only [pearsonCorrelation]
  rcases Nat.lt_or_ge (min a.length b.length) 2 with h2 | h2
  · rw [if_pos h2]
  · rcases h with h | h
    · omega
    · rw [if_neg (by omega), if_pos h]

/-- Witness for C6 at concrete inputs: a constant series (zero variance)
with ≥ 2 points, and a single-point pair. -/
theorem c6_pearson_neutral_zero_witness :
    pearsonCorrelation [1, 1, 1] [1, 2, 3] = 0 ∧
      pearsonCorrelation [1] [2] = 0 := by
  constructor
  · refine c6_pearson_neutral_zero _ _ (Or.inr ?_)
    have h0 : Rat.sqrt 0 = 0 := by
      rw [show (0 : ℚ) = 0 * 0 by ring, Rat.sqrt_eq]
      simp
    simp only [pearsonDenom, sumSqDevs, listMean]
    norm_num [h0]
  · exact c6_pearson_neutral_zero _ _ (Or.inl (by simp))

/-- Claim C6 counterexample: with 2 paired points, `var_a = 2·10⁻¹⁶ < 1e-15`, yet
the correlation of `a = [0, 2·10⁻⁸]` and `b = [0, 1]` is 1.0, not the 0.0
the claim requires: the code's guard compares `√(varA·varB)` (here
`10⁻⁸ ≥ 1e-15`), not each variance. -/
theorem c6_pearson_small_variance_counterexample :
    sumSqDevs [0, 2e-8] < 1e-15 ∧
      pearsonCorrelation [0, 2e-8] [0, 1] = 1 := by
  constructor
  · simp [sumSqDevs, listMean]
    norm_num
  · simp [pearsonCorrelation, pearsonDenom, sumSqDevs, covSum, listMean]
    norm_num
    have h : (1 / 10000000000000000 : ℚ) =
        (1 / 100000000) * (1 / 100000000) := by norm_num
    rw [h, Rat.sqrt_eq, abs_of_pos (by norm_num : (0 : ℚ) < 1 / 100000000)]
    norm_num

/-- Claim C7 (amended): `compute_term_spreads` emits exactly one entry per curve
observation that has a parseable date and both a 2Y and a 10Y rate, with
spread `10Y − 2Y` and slope `(30Y, falling back to 10Y) − (3M, falling
back to 2Y)`; other observations are dropped entirely, never zero-filled.
Stated as equality with the spec-side reference definition, plus the
one-entry-per-qualifying-observation count, plus the §8 example. -/
theorem c7_term_spreads_spec (rates : List TreasuryRate) :
    computeTermSpreads rates = specTermSpreads rates ∧
    (computeTermSpreads rates).length =
      (rates.filter fun r =>
        r.parsedDate.isSome && r.year10.isSome && r.year2.isSome).length ∧
    computeTermSpreads [rateExample] =
      [{ date := 0, spread10y2y := 0.7, curveSlope := 1.2 }] := by
  have hspec : computeTermSpreads rates = specTermSpreads rates := by
    induction rates with
    | nil => rfl
    | cons r t ih =>
      rcases hd : r.parsedDate with - | d <;>
        rcases h10 : r.year10 with - | y10 <;>
          rcases h2 : r.year2 with - | y2 <;>
            simp [computeTermSpreads, specTermSpreads, List.filterMap_cons,
              List.filter_cons, hd, h10, h2] <;>
              simpa [computeTermSpreads, specTermSpreads] using ih
  refine ⟨hspec, ?_, ?_⟩
  · rw [hspec, specTermSpreads, List.length_map]
  · simp only [computeTermSpreads, rateExample, List.filterMap_cons]
    norm_num

/-- Claim C7 counterexample: an observation holding both a 2Y and a 10Y rate but
an unparseable date produces no entry, so "exactly one entry per
observation that has both a 2Y and a 10Y rate" fails as stated. -/
theorem c7_term_spreads_missing_date_counterexample :
    rateNoDate.year2.isSome = true ∧ rateNoDate.year10.isSome = true ∧
      computeTermSpreads [rateNoDate] = [] :=
  ⟨rfl, rfl, rfl⟩

/-- Claim C10: observations whose date fails to parse contribute nothing to
either `compute_term_spreads` or `detect_inversions`: both functions are
unchanged by removing every unparseable-date observation. -/
theorem c10_unparseable_dates_dropped (rates : List TreasuryRate) :
    computeTermSpreads rates =
      computeTermSpreads (rates.filter fun r => r.parsedDate.isSome) ∧
    detectInversions rates =
      detectInversions (rates.filter fun r => r.parsedDate.isSome) := by
  constructor
  · exact filterMap_skips_unparseable _
      (fun r h => by
        show (match r.parsedDate, r.year10, r.year2 with
          | some date, some y10, some y2 =>
            some { date := date, spread10y2y := y10 - y2,
                   curveSlope := r.year30.getD y10 - r.month3.getD y2 }
          | _, _, _ => (none : Option BondSpread)) = none
        rw [h])
      rates
  · exact filterMap_skips_unparseable _
      (fun r h => by
        show (match r.parsedDate, r.year10, r.year2 with
          | some date, some y10, some y2 =>
            if y10 < y2 then some date else none
          | _, _, _ => (none : Option ℕ)) = none
        rw [h])
      rates

/-- Claim C9: `compute_correlation_matrix` returns (is total) whenever the number
of symbols does not exceed the number of return series; when the symbols
outnumber the return series (at least one series supplied) and the shortest
series has at least 2 points, the pairwise loop indexes the aligned list
out of bounds (modelled as `none`, a panic). -/
theorem c9_correlation_matrix_panic (symbols : List String)
    (returns : List (List ℚ)) :
    (symbols.length ≤ returns.length →
      (computeCorrelationMatrix symbols returns).isSome) ∧
    (returns ≠ [] → returns.length < symbols.length →
      (∀ r ∈ returns, 2 ≤ r.length) →
      computeCorrelationMatrix symbols returns = none) := by
  constructor
  · intro hle
    simp only [computeCorrelationMatrix]
    split
    · rfl
    · have hsome : (computeUpper
          (returns.map fun r => r.drop (r.length - minAlignedLen returns))
          symbols.length).isSome := by
        rw [computeUpper]
        refine optionMapAll_isSome_iff.2 fun p hp => ?_
        obtain ⟨i, j⟩ := p
        obtain ⟨hij, hjn⟩ := mem_pairList.1 hp
        have hi : i < returns.length := by omega
        have hj : j < returns.length := by omega
        rw [List.getElem?_eq_getElem (by simpa using hi),
          List.getElem?_eq_getElem (by simpa using hj)]
        rfl
      obtain ⟨u, hu⟩ := Option.isSome_iff_exists.1 hsome
      rw [hu]
      rfl
  · intro hne hlt hall
    have hmin : 2 ≤ minAlignedLen returns := by
      refine le_listMinD (by simpa using hne) ?_
      intro x hx
      obtain ⟨r, hr, rfl⟩ := List.mem_map.1 hx
      exact hall r hr
    simp only [computeCorrelationMatrix]
    rw [if_neg (by omega)]
    have hnone : computeUpper
        (returns.map fun r => r.drop (r.length - minAlignedLen returns))
        symbols.length = none := by
      rw [computeUpper]
      refine optionMapAll_eq_none
        (show ((0 : ℕ), returns.length) ∈ pairList symbols.length from ?_) ?_
      · refine mem_pairList.2 ⟨?_, hlt⟩
        cases returns with
        | nil => exact absurd rfl hne
        | cons r t => simp
      · have : ((returns.map fun r =>
            r.drop (r.length - minAlignedLen returns))[returns.length]?) =
            none := List.getElem?_eq_none (by simp)
        rw [this]
        cases ((returns.map fun r =>
          r.drop (r.length - minAlignedLen returns))[(0 : ℕ)]?) <;> rfl
    rw [hnone]

/-- Witness for C9 at concrete inputs: one symbol with one series (total),
and two symbols sharing a single two-point series (panic). -/
theorem c9_correlation_matrix_panic_witness :
    (computeCorrelationMatrix ["A"] [[0, 0]]).isSome = true ∧
    computeCorrelationMatrix ["A", "B"] [[0, 0]] = none := by
  constructor
  · exact (c9_correlation_matrix_panic ["A"] [[0, 0]]).1 (by decide)
  · exact (c9_correlation_matrix_panic ["A", "B"] [[0, 0]]).2
      (by decide) (by decide) (by decide)

/-- Claim C5 (amended): any matrix returned by `compute_correlation_matrix` is
symmetric; when the minimum aligned length is ≥ 2 every diagonal entry is
exactly 1.0; in the degenerate case (minimum aligned length < 2) the
returned matrix is entirely zero — including its diagonal, which is left
at the 0.0 initialisation rather than set to 1.0. -/
theorem c5_correlation_matrix_shape (symbols : List String)
    (returns : List (List ℚ)) (M : CorrelationMatrix)
    (hM : computeCorrelationMatrix symbols returns = some M) :
    (∀ i j, matEntry M.matrix i j = matEntry M.matrix j i) ∧
    (2 ≤ minAlignedLen returns →
      ∀ i < symbols.length, matEntry M.matrix i i = some 1) ∧
    (minAlignedLen returns < 2 →
      M.matrix =
        List.replicate symbols.length (List.replicate symbols.length 0)) := by
  simp only [computeCorrelationMatrix] at hM
  split at hM
  · rename_i hdeg
    obtain rfl := Option.some.inj hM
    refine ⟨?_, ?_, fun _ => rfl⟩
    · intro i j
      dsimp only
      rw [matEntry_replicate, matEntry_replicate]
      by_cases hi : i < symbols.length <;> by_cases hj : j < symbols.length <;>
        simp [hi, hj]
    · intro hge
      exact absurd hge (by omega)
  · rename_i hnondeg
    split at hM
    · exact absurd hM (by simp)
    · rename_i upper hupper
      obtain rfl := Option.some.inj hM
      refine ⟨?_, ?_, ?_⟩
      · intro i j
        dsimp only
        rw [matEntry_rangeMap, matEntry_rangeMap]
        by_cases hi : i < symbols.length <;>
          by_cases hj : j < symbols.length <;>
            simp only [hi, hj, and_true, true_and, and_false, false_and,
              if_true, if_false, ite_true, ite_false]
        by_cases hij : i = j
        · rw [hij]
        · rw [if_neg hij, if_neg (fun h => hij h.symm),
            min_comm j i, max_comm j i]
      · intro hmin2 i hi
        dsimp only
        rw [matEntry_rangeMap, if_pos ⟨hi, hi⟩, if_pos rfl]
      · intro hdeg
        exact absurd hdeg hnondeg

/-- Witness for C5 at a concrete input: two symbols over three aligned
points; the returned matrix is mirror-symmetric at (0,1)/(1,0) and its
first diagonal entry is exactly 1. -/
theorem c5_correlation_matrix_shape_witness :
    matEntry corrExample.matrix 0 1 = matEntry corrExample.matrix 1 0 ∧
    matEntry corrExample.matrix 0 0 = some 1 := by
  have hsome : (computeCorrelationMatrix ["A", "B"]
      [[1, 0, 1], [0, 1, 0]]).isSome := by decide
  have hM : computeCorrelationMatrix ["A", "B"] [[1, 0, 1], [0, 1, 0]] =
      some corrExample := by
    rw [corrExample]
    cases h : computeCorrelationMatrix ["A", "B"] [[1, 0, 1], [0, 1, 0]] with
    | none => rw [h] at hsome; simp at hsome
    | some m => rfl
  have h := c5_correlation_matrix_shape _ _ _ hM
  exact ⟨h.1 0 1, h.2.1 (by decide) 0 (by decide)⟩

/-- Claim C5 counterexample: a degenerate one-symbol input (empty series, minimum
aligned length 0 < 2) yields the all-zero matrix `[[0]]`, whose diagonal
entry is 0.0, not the 1.0 the claim requires for the degenerate case. -/
theorem c5_degenerate_diagonal_counterexample :
    computeCorrelationMatrix ["A"] [[]] = some ⟨["A"], [[0]]⟩ ∧
      matEntry [[(0 : ℚ)]] 0 0 = some 0 ∧ (0 : ℚ) ≠ 1 := by
  refine ⟨rfl, rfl, by norm_num⟩

/-- Claim C3 (amended): in `build_dataset` the bond-spread, curve-slope and
benchmark-volatility series are aligned to the trailing (most recent)
`vol_len` entries — for the newest-first bond series, the first `vol_len`
observations reversed, i.e. the trailing `vol_len` of the chronological
(reversed) series — and always have length `vol_len`; but when the bond or
benchmark data does not cover `vol_len`, the **entire** series is filled
with 0.0 (the available partial history is discarded), not only the
missing portion. -/
theorem c3_series_alignment (bs : List BondSpread) (bv : List ℚ)
    (volLen : ℕ) :
    ((spreadVals bs volLen).length = volLen ∧
      (slopeVals bs volLen).length = volLen ∧
      (benchAligned bv volLen).length = volLen) ∧
    (volLen ≤ bs.length →
      spreadVals bs volLen =
        ((bs.map fun s => s.spread10y2y).reverse).drop (bs.length - volLen) ∧
      slopeVals bs volLen =
        ((bs.map fun s => s.curveSlope).reverse).drop (bs.length - volLen)) ∧
    (volLen ≤ bv.length →
      benchAligned bv volLen = bv.drop (bv.length - volLen)) ∧
    (bs.length < volLen →
      spreadVals bs volLen = List.replicate volLen 0 ∧
      slopeVals bs volLen = List.replicate volLen 0) ∧
    (bv.length < volLen → benchAligned bv volLen = List.replicate volLen 0) := by
  refine ⟨⟨?_, ?_, ?_⟩, ?_, ?_, ?_, ?_⟩
  · rw [spreadVals]
    split
    · simp
      omega
    · simp
  · rw [slopeVals]
    split
    · simp
      omega
    · simp
  · rw [benchAligned]
    split
    · simp
      omega
    · simp
  · intro h
    constructor
    · rw [spreadVals, if_pos h, List.map_reverse, List.map_take,
        List.reverse_take, List.length_map]
    · rw [slopeVals, if_pos h, List.map_reverse, List.map_take,
        List.reverse_take, List.length_map]
  · intro h
    rw [benchAligned, if_pos h]
  · intro h
    exact ⟨by rw [spreadVals, if_neg (by omega)],
      by rw [slopeVals, if_neg (by omega)]⟩
  · intro h
    rw [benchAligned, if_neg (by omega)]

/-- Witness for C3 at concrete inputs: a two-observation bond series
aligned to `vol_len = 1` (trailing entry kept), and a two-point benchmark
series zero-filled at `vol_len = 3`. -/
theorem c3_series_alignment_witness :
    spreadVals bondSpreadsExample 1 =
      ((bondSpreadsExample.map fun s => s.spread10y2y).reverse).drop 1 ∧
    benchAligned [1, 2] 3 = List.replicate 3 0 := by
  constructor
  · have h := (c3_series_alignment bondSpreadsExample [] 1).2.1 (by decide)
    simpa using h.1
  · exact (c3_series_alignment [] [1, 2] 3).2.2.2.2 (by decide)

/-- Claim C3 counterexample: with two bond observations (spreads 5 and 6) and
`vol_len = 3`, the code emits an entirely zero spread series `[0, 0, 0]`,
discarding the two available values instead of zero-filling only the one
missing position. -/
theorem c3_whole_series_zero_fill_counterexample :
    spreadVals bondSpreadsExample 3 = [0, 0, 0] ∧
      (bondSpreadsExample.map fun s => s.spread10y2y) = [5, 6] ∧
      (5 : ℚ) ≠ 0 :=
  ⟨rfl, rfl, by norm_num⟩

/-- Claim C4 (amended): provided `2 ≤ short_window ≤ long_window` and the
high/low series have equal length covering at least the return series,
all four series of the returned `VolatilityMetrics` have the length of the
long-window series, each obtained by discarding leading (oldest) elements
only — the short-window and Parkinson series are trailing suffixes of
their untrimmed versions.  (Without the window hypotheses the four lengths
can differ, see the counterexample.) -/
theorem c4_sector_metrics_trim (lnf : ℚ → ℚ) (ln2 : ℚ) (symbol : String)
    (lr highs lows : List ℚ) (sw lw : ℕ) (h2 : 2 ≤ sw) (hle : sw ≤ lw)
    (hhl : highs.length = lows.length) (hcov : lr.length ≤ highs.length) :
    (computeSectorVolatility lnf ln2 symbol lr highs lows sw lw).longWindowVol
        = rollingVolatility lr lw ∧
    (computeSectorVolatility lnf ln2 symbol lr highs lows sw lw).shortWindowVol.length
        = (rollingVolatility lr lw).length ∧
    (computeSectorVolatility lnf ln2 symbol lr highs lows sw lw).parkinsonVol.length
        = (rollingVolatility lr lw).length ∧
    (computeSectorVolatility lnf ln2 symbol lr highs lows sw lw).volRatio.length
        = (rollingVolatility lr lw).length ∧
    (computeSectorVolatility lnf ln2 symbol lr highs lows sw lw).shortWindowVol
        <:+ rollingVolatility lr sw ∧
    (computeSectorVolatility lnf ln2 symbol lr highs lows sw lw).parkinsonVol
        <:+ parkinsonVolatility lnf ln2 highs lows sw := by
  refine ⟨rfl, ?_, ?_, ?_, ?_, ?_⟩
  · show (trimTo (rollingVolatility lr lw).length
      (rollingVolatility lr sw)).length = (rollingVolatility lr lw).length
    rcases Nat.lt_or_ge lr.length lw with hA | hB
    · rw [rollingVolatility_eq_nil (Or.inl hA)]
      exact trimTo_length (Nat.zero_le _)
    · rw [rollingVolatility_length hB (by omega)]
      refine trimTo_length ?_
      rw [rollingVolatility_length (by omega) h2]
      omega
  · show (trimTo (rollingVolatility lr lw).length
      (parkinsonVolatility lnf ln2 highs lows sw)).length =
        (rollingVolatility lr lw).length
    rcases Nat.lt_or_ge lr.length lw with hA | hB
    · rw [rollingVolatility_eq_nil (Or.inl hA)]
      exact trimTo_length (Nat.zero_le _)
    · rw [rollingVolatility_length hB (by omega)]
      refine trimTo_length ?_
      rw [parkinsonVolatility_length hhl (by omega) (by omega)]
      omega
  · show (volatilityRatio (rollingVolatility lr sw)
      (rollingVolatility lr lw)).length = (rollingVolatility lr lw).length
    rw [volatilityRatio_length]
    rcases Nat.lt_or_ge lr.length lw with hA | hB
    · rw [rollingVolatility_eq_nil (Or.inl hA)]
      simp
    · rw [rollingVolatility_length hB (by omega),
        rollingVolatility_length (by omega) h2]
      omega
  · exact trimTo_suffix _ _
  · exact trimTo_suffix _ _

/-- Witness for C4 at a concrete input: five returns, windows 2 and 3,
six-bar high/low series; all four series end up with the long-window
length 3. -/
theorem c4_sector_metrics_trim_witness :
    (computeSectorVolatility (fun q => q) 1 "W" (List.replicate 5 0)
      (List.replicate 6 1) (List.replicate 6 1) 2 3).shortWindowVol.length = 3 ∧
    (computeSectorVolatility (fun q => q) 1 "W" (List.replicate 5 0)
      (List.replicate 6 1) (List.replicate 6 1) 2 3).parkinsonVol.length = 3 ∧
    (computeSectorVolatility (fun q => q) 1 "W" (List.replicate 5 0)
      (List.replicate 6 1) (List.replicate 6 1) 2 3).volRatio.length = 3 := by
  have h := c4_sector_metrics_trim (fun q => q) 1 "W" (List.replicate 5 0)
    (List.replicate 6 1) (List.replicate 6 1) 2 3
    (by decide) (by decide) (by decide) (by decide)
  have hn : (rollingVolatility (List.replicate 5 0) 3).length = 3 := by decide
  exact ⟨by rw [h.2.1, hn], by rw [h.2.2.1, hn], by rw [h.2.2.2.1, hn]⟩

/-- Claim C4 counterexample: with `short_window = 5 > long_window = 2` on five
returns, the long-window series has length 4 while the trimmed
short-window series keeps length 1 — the four series do not share a
common length, so the claim fails for arbitrary inputs. -/
theorem c4_uncommon_length_counterexample :
    (computeSectorVolatility (fun q => q) 1 "X" [1, 0, 1, 0, 1] [] []
      5 2).longWindowVol.length = 4 ∧
    (computeSectorVolatility (fun q => q) 1 "X" [1, 0, 1, 0, 1] [] []
      5 2).shortWindowVol.length = 1 ∧
    (1 : ℕ) ≠ 4 := by
  refine ⟨by decide, by decide, by decide⟩

/-- Claim C2: when `train` runs all epochs to completion (the dataset is nonempty
and the 80/20 split admits at least one batch and one held-out sample), the
terminal status is `Complete` with `final_loss` equal to the minimum of the
per-epoch average losses observed across the whole run. -/
theorem c2_train_complete_best_loss (dataset : VolDataset) (batchSize : ℕ)
    (l : ℚ) (ls : List ℚ)
    (h0 : dataset.samples.length ≠ 0)
    (h1 : batchSize ≤ dataset.samples.length * 4 / 5)
    (h2 : 1 ≤ dataset.samples.length - dataset.samples.length * 4 / 5) :
    trainFinalStatus dataset batchSize (l :: ls) =
      TrainingStatus.Complete (some (ls.foldl min l)) ∧
    ls.foldl min l ∈ l :: ls ∧ ∀ x ∈ l :: ls, ls.foldl min l ≤ x := by
  refine ⟨?_, ?_, ?_⟩
  · simp only [trainFinalStatus]
    rw [if_neg h0, if_neg (by omega), bestLoss_cons]
  · rcases foldl_min_mem (l := ls) (a := l) with h | h
    · rw [h]
      exact List.mem_cons_self _ _
    · exact List.mem_cons_of_mem _ h
  · intro x hx
    rcases List.mem_cons.1 hx with rfl | hx
    · exact foldl_min_le.1
    · exact foldl_min_le.2 x hx

/-- Witness for C2 at a concrete input: 100 samples, batch size 32, epoch
losses `[3, 1, 2]`; the terminal status is `Complete` with the minimum 1. -/
theorem c2_train_complete_best_loss_witness :
    trainFinalStatus ⟨List.replicate 100 ⟨[], 0⟩⟩ 32 [3, 1, 2] =
      TrainingStatus.Complete (some 1) ∧ (1 : ℚ) ∈ [(3 : ℚ), 1, 2] := by
  have h := c2_train_complete_best_loss ⟨List.replicate 100 ⟨[], 0⟩⟩ 32 3
    [1, 2] (by decide) (by decide) (by decide)
  have hmin : ([1, 2] : List ℚ).foldl min 3 = 1 := by
    norm_num [List.foldl, min_def]
  exact ⟨by rw [h.1, hmin], hmin ▸ h.2.1⟩

/-- Claim C1 (amended): for every market-data input with at most 11 sectors and
every lookback/forward configuration, each sample emitted by
`build_dataset` has exactly `lookback` feature rows and every row has
exactly 26 features (so all samples in one dataset share that width).
With more than 11 sectors the code pads nothing and truncates nothing, so
the width grows beyond 26 — see the counterexample. -/
theorem c1_sample_shape (d : MarketData) (lookback forward : ℕ)
    (ds : VolDataset) (hsec : d.sectors.length ≤ 11)
    (hds : buildDataset d lookback forward = some ds) :
    ∀ s ∈ ds.samples, s.features.length = lookback ∧
      ∀ row ∈ s.features, row.length = 26 := by
  simp only [buildDataset] at hds
  split at hds
  · obtain rfl := Option.some.inj hds
    intro s hs
    simp at hs
  · split at hds
    · obtain rfl := Option.some.inj hds
      intro s hs
      simp at hs
    · split at hds
      · obtain rfl := Option.some.inj hds
        intro s hs
        simp at hs
      · split at hds
        · exact absurd hds (by simp)
        · split at hds
          · obtain rfl := Option.some.inj hds
            intro s hs
            simp at hs
          · obtain rfl := Option.some.inj hds
            intro s hs
            dsimp only at hs
            obtain ⟨start, hstart, rfl⟩ := List.mem_map.1 hs
            dsimp only
            constructor
            · simp
            · intro row hrow
              obtain ⟨k, hk, rfl⟩ := List.mem_map.1 hrow
              simp only [List.length_append, List.length_map,
                List.length_replicate, List.length_cons, List.length_nil]
              omega

/-- Witness for C1 at a concrete input: one sector with 64 return points,
`lookback = 1`, `forward = 0`; the first emitted sample has exactly 1 row
of exactly 26 features. -/
theorem c1_sample_shape_witness :
    marketOneSector.sectors.length ≤ 11 ∧
    datasetOneSector.samples.headI.features.length = 1 ∧
    datasetOneSector.samples.headI.features.headI.length = 26 := by
  have hsome : (buildDataset marketOneSector 1 0).isSome := by decide
  have hM : buildDataset marketOneSector 1 0 = some datasetOneSector := by
    rw [datasetOneSector]
    cases h : buildDataset marketOneSector 1 0 with
    | none => rw [h] at hsome; simp at hsome
    | some ds => rfl
  have hlen : datasetOneSector.samples.length = 43 := by decide
  have hne : datasetOneSector.samples ≠ [] := by
    intro h
    rw [h] at hlen
    simp at hlen
  have h := c1_sample_shape marketOneSector 1 0 datasetOneSector
    (by decide) hM _ (headI_mem hne)
  have hfne : datasetOneSector.samples.headI.features ≠ [] := by
    intro hf
    have h1 := h.1
    rw [hf] at h1
    simp at h1
  exact ⟨by decide, h.1, h.2 _ (headI_mem hfne)⟩

/-- Claim C1 counterexample: with 12 sectors (one more than the padding basis of
11) the first emitted sample's single row has 28 features, not 26: the
code zero-pads up to 11 sectors but never truncates beyond 11, so the
claimed fixed width fails for such market-data inputs. -/
theorem c1_row_width_counterexample :
    marketTwelveSectors.sectors.length = 12 ∧
    ((buildDataset marketTwelveSectors 1 0).map fun ds =>
      ds.samples.head?.map fun s => s.features.map List.length) =
      some (some [28]) ∧ (28 : ℕ) ≠ 26 := by
  refine ⟨by decide, by decide, by decide⟩

end VolAnalysis
